import Mathlib

/-!
Verification of the Taiwan payroll calculation engine.

The engine is embedded over exact rationals: every JavaScript number that
occurs in the calculation is a small decimal, so `ℚ` models the arithmetic
exactly; `Math.round` and `Math.ceil` become `jsRound` and `jsCeil` below.
The definitions follow `src/utils/taiwanLaborRules.ts` (the variant that
`App.tsx` imports, i.e. the one defining `PENSION_BRACKETS` and
`getPensionInsuredSalary`) and the primary payroll aggregation in
`src/App.tsx` (the `payrolls` memo using the net-pay based total cost).
-/

namespace Salary

/-- JavaScript `Math.round` on a non-negative amount: `⌊q + 1/2⌋` (round
half up), returned as an integer-valued rational since JS numbers are one
type. Computed through `Rat.floor` so that it evaluates by `decide`;
`jsRound_eq` identifies it with the mathematical floor. -/
def jsRound (q : ℚ) : ℚ := (((q + 1/2).floor : ℤ) : ℚ)

/-- JavaScript `Math.ceil`: `⌈q⌉`, returned as an integer-valued rational.
Computed as `-⌊-q⌋` through `Rat.floor` so that it evaluates by `decide`;
`jsCeil_eq` identifies it with the mathematical ceiling. -/
def jsCeil (q : ℚ) : ℚ := ((-((-q).floor) : ℤ) : ℚ)

/-! Rate constants from `taiwanLaborRules.ts`. -/

def LABOR_INSURANCE_RATE : ℚ := 0.125
def LABOR_EMPLOYEE_SHARE : ℚ := 0.20
def LABOR_EMPLOYER_SHARE : ℚ := 0.70

def HEALTH_INSURANCE_RATE : ℚ := 0.0517
def HEALTH_EMPLOYEE_SHARE : ℚ := 0.30
def HEALTH_EMPLOYER_SHARE : ℚ := 0.60
def AVG_DEPENDENTS_EMPLOYER : ℚ := 0.58

def PENSION_RATE : ℚ := 0.06

/-- Labor insurance brackets (max 45,800). -/
def LABOR_BRACKETS : List ℚ := [
  11100, 12540, 13500, 15840, 16500, 17280, 17880, 19047, 20008,
  21009, 22000, 23100, 24000, 25250, 26400, 27600, 28500, 29500,
  30300, 31800, 33300, 34800, 36300, 38200, 40100, 42000, 43900, 45800]

/-- Health insurance brackets (level 1 at 28,590, max 313,000). -/
def HEALTH_BRACKETS : List ℚ := [
  28590, 28800, 30300, 31800, 33300, 34800, 36300, 38200, 40100, 42000,
  43900, 45800, 48200, 50600, 53000, 55400, 57800, 60800, 63800, 66800,
  69800, 72800, 76500, 80200, 83900, 87600, 92100, 96600, 101100, 105600,
  110100, 115500, 120500, 125500, 131700, 137900, 144100, 150000, 156400,
  162800, 169200, 175600, 182000, 189500, 197000, 204500, 212000, 219500,
  228200, 236900, 245600, 254300, 263000, 273000, 283000, 293000, 303000, 313000]

/-- Pension brackets (up to 150,000); a dedicated sequence, distinct from
the labor-insurance brackets. -/
def PENSION_BRACKETS : List ℚ := [
  1500, 3000, 4500, 6000, 7500,
  8700, 9900, 11100, 12540, 13500,
  15840, 16500, 17280, 17880, 19047,
  20008, 21009, 22000, 23100, 24000,
  25250, 26400, 27600, 28590, 29500,
  30300, 31800, 33300, 34800, 36300,
  38200, 40100, 42000, 43900, 45800,
  48200, 50600, 53000, 55400, 57800,
  60800, 63800, 66800, 69800, 72800,
  76500, 80200, 83900, 87600, 92100,
  96600, 101100, 105600, 110100, 115500,
  120900, 126300, 131700, 137100, 142500,
  147900, 150000]

/-- The `for (const bracket of TABLE) if (salary <= bracket) return bracket`
scan shared by the three lookup functions. -/
def findBracket (salary : ℚ) : List ℚ → Option ℚ
  | [] => none
  | b :: bs => if salary ≤ b then some b else findBracket salary bs

/-- The common shape of `getLaborInsuredSalary` / `getHealthInsuredSalary` /
`getPensionInsuredSalary`: if below the first tier return it, otherwise the
first tier `≥ salary`, otherwise the last (maximum) tier. -/
def lookupTier (table : List ℚ) (salary : ℚ) : ℚ :=
  match table with
  | [] => 0
  | t0 :: rest =>
    if salary ≤ t0 then t0
    else
      match findBracket salary (t0 :: rest) with
      | some b => b
      | none => ((t0 :: rest).getLast?).getD 0

def getLaborInsuredSalary (salary : ℚ) : ℚ := lookupTier LABOR_BRACKETS salary

def getHealthInsuredSalary (salary : ℚ) : ℚ := lookupTier HEALTH_BRACKETS salary

def getPensionInsuredSalary (salary : ℚ) : ℚ := lookupTier PENSION_BRACKETS salary

/-- Employee share of labor insurance. -/
def calculateLaborInsurance (salary : ℚ) : ℚ :=
  jsRound (getLaborInsuredSalary salary * LABOR_INSURANCE_RATE * LABOR_EMPLOYEE_SHARE)

/-- Employee share of health insurance: round the single-person share first,
then multiply by `1 + min(dependents, 3)`. -/
def calculateHealthInsurance (salary : ℚ) (dependents : ℕ) : ℚ :=
  jsRound (getHealthInsuredSalary salary * HEALTH_INSURANCE_RATE * HEALTH_EMPLOYEE_SHARE)
    * ((1 + min dependents 3 : ℕ) : ℚ)

/-- Employer share of labor insurance. -/
def calculateLaborInsuranceEmployer (salary : ℚ) : ℚ :=
  jsRound (getLaborInsuredSalary salary * LABOR_INSURANCE_RATE * LABOR_EMPLOYER_SHARE)

/-- Employer share of health insurance (flat average-dependents multiplier). -/
def calculateHealthInsuranceEmployer (salary : ℚ) : ℚ :=
  jsRound (getHealthInsuredSalary salary * HEALTH_INSURANCE_RATE * HEALTH_EMPLOYER_SHARE
    * (1 + AVG_DEPENDENTS_EMPLOYER))

/-- Employer pension contribution (6% of the pension-bracket tier). -/
def calculatePension (salaryForPension : ℚ) : ℚ :=
  jsRound (getPensionInsuredSalary salaryForPension * PENSION_RATE)

/-- One weekday / rest-day overtime block: first 2 hours at 4/3, the rest at
5/3 of the hourly rate (the two blocks in the source are identical). -/
def weekdayOvertime (hourlyRate hours : ℚ) : ℚ :=
  if 0 < hours then
    hourlyRate * min hours 2 * (4/3) + hourlyRate * max 0 (hours - 2) * (5/3)
  else 0

/-- The statutory-holiday overtime block: any positive hours pay a full day
(8 hours); hours beyond 8 pay 4/3 each. -/
def holidayOvertime (hourlyRate hours : ℚ) : ℚ :=
  if 0 < hours then
    hourlyRate * 8 + (if 8 < hours then hourlyRate * (hours - 8) * (4/3) else 0)
  else 0

/-- `calculateOvertimePay` from `taiwanLaborRules.ts`: unrounded hourly rate
`regularSalary / 240`, three category blocks, a single `Math.ceil` at the end. -/
def calculateOvertimePay (regularSalary weekdayHours restDayHours holidayHours : ℚ) : ℚ :=
  let hourlyRate := regularSalary / 240
  jsCeil (weekdayOvertime hourlyRate weekdayHours
    + weekdayOvertime hourlyRate restDayHours
    + holidayOvertime hourlyRate holidayHours)

/-- The overtime formula exactly as the specification words it (no positivity
guard on the weekday / rest-day terms; the holiday term split into the flat
day payment and the beyond-8-hours excess). -/
def overtimePaySpec (regularSalary weekdayHours restDayHours holidayHours : ℚ) : ℚ :=
  let rate := regularSalary / 240
  jsCeil ((rate * min weekdayHours 2 * (4/3) + rate * max 0 (weekdayHours - 2) * (5/3))
    + (rate * min restDayHours 2 * (4/3) + rate * max 0 (restDayHours - 2) * (5/3))
    + ((if 0 < holidayHours then rate * 8 else 0)
        + (if 8 < holidayHours then rate * (holidayHours - 8) * (4/3) else 0)))

/-! The data model from `src/types.ts`. -/

structure Allowance where
  id : String
  name : String
  amount : ℚ
  deriving DecidableEq

structure Deduction where
  id : String
  name : String
  amount : ℚ
  deriving DecidableEq

structure Employee where
  id : String
  name : String
  position : String
  department : String
  bankName : String
  bankAccount : String
  baseSalary : ℚ
  mealAllowance : ℚ
  fuelAllowance : ℚ
  attendanceBonus : ℚ
  useBaseSalaryForInsurance : Bool
  otHoursWeekday : ℚ
  otHoursRestDay : ℚ
  otHoursHoliday : ℚ
  dependents : ℕ
  customAllowances : List Allowance
  customDeductions : List Deduction
  joinDate : String
  deriving DecidableEq

structure CalculatedPayroll where
  employeeId : String
  insuredSalary : ℚ
  insuredSalaryHealth : ℚ
  insuredSalaryPension : ℚ
  laborInsuranceEmp : ℚ
  healthInsuranceEmp : ℚ
  totalCustomDeductions : ℚ
  laborInsuranceCo : ℚ
  healthInsuranceCo : ℚ
  pensionCompany : ℚ
  overtimePay : ℚ
  grossSalary : ℚ
  totalDeductions : ℚ
  netPay : ℚ
  totalCompanyCost : ℚ
  deriving DecidableEq

/-- The session-level pension checkbox in `App.tsx` is created by
`useState(false)` with no setter in scope, so it is constantly `false`. -/
def useBaseSalaryForPension : Bool := false

/-- The per-employee body of the primary `payrolls` memo in `App.tsx`
(the authoritative aggregation, with the net-pay based total cost). -/
def computePayroll (emp : Employee) : CalculatedPayroll :=
  let regularSalary := emp.baseSalary + emp.mealAllowance + emp.fuelAllowance + emp.attendanceBonus
  let overtimePay := calculateOvertimePay regularSalary emp.otHoursWeekday emp.otHoursRestDay
    emp.otHoursHoliday
  let fixedMonthlyTotal := regularSalary + (emp.customAllowances.map Allowance.amount).sum
  let grossSalary := fixedMonthlyTotal + overtimePay
  let insuranceBasisSalary := if emp.useBaseSalaryForInsurance then emp.baseSalary
    else fixedMonthlyTotal
  let insuredSalary := getLaborInsuredSalary insuranceBasisSalary
  let insuredSalaryHealth := getHealthInsuredSalary insuranceBasisSalary
  let pensionBasisSalary := if useBaseSalaryForPension || emp.useBaseSalaryForInsurance then
    emp.baseSalary else fixedMonthlyTotal
  let insuredSalaryPension := getPensionInsuredSalary pensionBasisSalary
  let laborEmp := calculateLaborInsurance insuranceBasisSalary
  let healthEmp := calculateHealthInsurance insuranceBasisSalary emp.dependents
  let totalCustomDeductions := (emp.customDeductions.map Deduction.amount).sum
  let totalDeductions := laborEmp + healthEmp + totalCustomDeductions
  let laborCo := calculateLaborInsuranceEmployer insuranceBasisSalary
  let healthCo := calculateHealthInsuranceEmployer insuranceBasisSalary
  let pension := calculatePension pensionBasisSalary
  let netPay := grossSalary - totalDeductions
  let totalCompanyCost := netPay + laborCo + healthCo + pension
  { employeeId := emp.id
    insuredSalary := insuredSalary
    insuredSalaryHealth := insuredSalaryHealth
    insuredSalaryPension := insuredSalaryPension
    laborInsuranceEmp := laborEmp
    healthInsuranceEmp := healthEmp
    totalCustomDeductions := totalCustomDeductions
    laborInsuranceCo := laborCo
    healthInsuranceCo := healthCo
    pensionCompany := pension
    overtimePay := overtimePay
    grossSalary := grossSalary
    totalDeductions := totalDeductions
    netPay := netPay
    totalCompanyCost := totalCompanyCost }

/-- JavaScript `Map.set`: replace in place when the key is present
(preserving first-insertion order), otherwise append. -/
def mapSet (m : List (String × CalculatedPayroll)) (k : String) (v : CalculatedPayroll) :
    List (String × CalculatedPayroll) :=
  if m.any (fun p => p.1 == k) then
    m.map (fun p => if p.1 == k then (k, v) else p)
  else m ++ [(k, v)]

/-- The `payrolls` memo: fold the employees into a `Map` keyed by id. -/
def computePayrollBatch (emps : List Employee) : List (String × CalculatedPayroll) :=
  emps.foldl (fun m e => mapSet m e.id (computePayroll e)) []

/-- The `insuranceBasisSalary` of the aggregation, named so that the field
projections of `computePayroll` can be stated compactly: the base salary
when the employee flag is set, otherwise the fixed monthly total. -/
def insuranceBasis (emp : Employee) : ℚ :=
  if emp.useBaseSalaryForInsurance then emp.baseSalary
  else emp.baseSalary + emp.mealAllowance + emp.fuelAllowance + emp.attendanceBonus
    + (emp.customAllowances.map Allowance.amount).sum

/-- The sample employee record shipped in `App.tsx` (`initialEmployees[0]`),
which is exactly the record of the spec's full-aggregate scenario. -/
def demoEmployee : Employee :=
  { id := "1"
    name := "範例員工-王小明"
    position := "資深工程師"
    department := "研發部"
    bankName := "中國信託"
    bankAccount := "1234-5678-0000"
    baseSalary := 60000
    mealAllowance := 3000
    fuelAllowance := 1000
    attendanceBonus := 2000
    useBaseSalaryForInsurance := false
    otHoursWeekday := 3
    otHoursRestDay := 0
    otHoursHoliday := 0
    dependents := 0
    customAllowances := [{ id := "a1", name := "專案獎金", amount := 5000 }]
    customDeductions := []
    joinDate := "2023-01-15" }

/-- A minimal employee record used to instantiate batch-level theorems. -/
def empA : Employee :=
  { id := "A", name := "A", position := "", department := "", bankName := "", bankAccount := ""
    baseSalary := 30000, mealAllowance := 0, fuelAllowance := 0, attendanceBonus := 0
    useBaseSalaryForInsurance := true
    otHoursWeekday := 0, otHoursRestDay := 0, otHoursHoliday := 0
    dependents := 0, customAllowances := [], customDeductions := [], joinDate := "" }

/-- A second employee record with a different id and salary. -/
def empB : Employee :=
  { id := "B", name := "B", position := "", department := "", bankName := "", bankAccount := ""
    baseSalary := 40000, mealAllowance := 0, fuelAllowance := 0, attendanceBonus := 0
    useBaseSalaryForInsurance := true
    otHoursWeekday := 0, otHoursRestDay := 0, otHoursHoliday := 0
    dependents := 0, customAllowances := [], customDeductions := [], joinDate := "" }

/-- A third employee record, used to vary the context around `empA`. -/
def empC : Employee :=
  { id := "C", name := "C", position := "", department := "", bankName := "", bankAccount := ""
    baseSalary := 50000, mealAllowance := 0, fuelAllowance := 0, attendanceBonus := 0
    useBaseSalaryForInsurance := false
    otHoursWeekday := 2, otHoursRestDay := 0, otHoursHoliday := 0
    dependents := 2, customAllowances := [], customDeductions := [], joinDate := "" }

/-! ## Helper lemmas -/

lemma ratFloor_eq (q : ℚ) : Rat.floor q = ⌊q⌋ := by
  rw [Rat.floor_def', Rat.floor_def]

lemma jsRound_eq (q : ℚ) : jsRound q = ((⌊q + 1/2⌋ : ℤ) : ℚ) := by
  unfold jsRound
  rw [ratFloor_eq]

lemma jsCeil_eq (q : ℚ) : jsCeil q = ((⌈q⌉ : ℤ) : ℚ) := by
  unfold jsCeil
  rw [ratFloor_eq, Int.floor_neg, neg_neg]

lemma jsRound_eq_of (q : ℚ) (n : ℕ) (h1 : (n:ℚ) ≤ q + 1/2) (h2 : q + 1/2 < (n:ℚ) + 1) :
    jsRound q = (n : ℚ) := by
  rw [jsRound_eq]
  have hfl : ⌊q + 1/2⌋ = (n:ℤ) :=
    Int.floor_eq_iff.mpr ⟨by exact_mod_cast h1, by exact_mod_cast h2⟩
  rw [hfl]
  norm_num

lemma jsCeil_eq_of (q : ℚ) (n : ℕ) (h1 : (n:ℚ) - 1 < q) (h2 : q ≤ (n:ℚ)) :
    jsCeil q = (n : ℚ) := by
  rw [jsCeil_eq]
  have hcl : ⌈q⌉ = (n:ℤ) :=
    Int.ceil_eq_iff.mpr ⟨by exact_mod_cast h1, by exact_mod_cast h2⟩
  rw [hcl]
  norm_num

lemma findBracket_none {s : ℚ} : ∀ {l : List ℚ}, findBracket s l = none → ∀ b ∈ l, b < s := by
  intro l
  induction l with
  | nil => intro _ b hb; cases hb
  | cons a as ih =>
    intro h b hb
    unfold findBracket at h
    by_cases hsa : s ≤ a
    · rw [if_pos hsa] at h; cases h
    · rw [if_neg hsa] at h
      rcases List.mem_cons.mp hb with rfl | hmem
      · exact not_le.mp hsa
      · exact ih h b hmem

lemma findBracket_some {s : ℚ} : ∀ {l : List ℚ} {b : ℚ},
    findBracket s l = some b → b ∈ l ∧ s ≤ b := by
  intro l
  induction l with
  | nil => intro b h; cases h
  | cons a as ih =>
    intro b h
    unfold findBracket at h
    by_cases hsa : s ≤ a
    · rw [if_pos hsa] at h
      obtain rfl : a = b := Option.some.inj h
      exact ⟨List.mem_cons_self a as, hsa⟩
    · rw [if_neg hsa] at h
      obtain ⟨hmem, hsb⟩ := ih h
      exact ⟨List.mem_cons_of_mem a hmem, hsb⟩

lemma findBracket_least {s b : ℚ} : ∀ {l : List ℚ}, l.Sorted (· ≤ ·) →
    findBracket s l = some b → ∀ c ∈ l, s ≤ c → b ≤ c := by
  intro l
  induction l with
  | nil => intro _ h; cases h
  | cons a as ih =>
    intro hsort h c hc hsc
    rw [List.sorted_cons] at hsort
    unfold findBracket at h
    by_cases hsa : s ≤ a
    · rw [if_pos hsa] at h
      obtain rfl : a = b := Option.some.inj h
      rcases List.mem_cons.mp hc with rfl | hmem
      · exact le_refl c
      · exact hsort.1 c hmem
    · rw [if_neg hsa] at h
      rcases List.mem_cons.mp hc with rfl | hmem
      · exact absurd hsc hsa
      · exact ih hsort.2 h c hmem hsc

lemma lookupTier_head (t0 : ℚ) (rest : List ℚ) (s : ℚ) (h : s ≤ t0) :
    lookupTier (t0 :: rest) s = t0 := by
  simp [lookupTier, h]

lemma weekdayOvertime_nonneg {rate : ℚ} (hr : 0 ≤ rate) (h : ℚ) :
    0 ≤ weekdayOvertime rate h := by
  unfold weekdayOvertime
  split
  · rename_i hpos
    have h1 : (0:ℚ) ≤ min h 2 := le_min hpos.le (by norm_num)
    have h2 : (0:ℚ) ≤ max 0 (h - 2) := le_max_left 0 _
    have t1 := mul_nonneg (mul_nonneg hr h1) (by norm_num : (0:ℚ) ≤ 4/3)
    have t2 := mul_nonneg (mul_nonneg hr h2) (by norm_num : (0:ℚ) ≤ 5/3)
    linarith
  · exact le_refl 0

lemma weekdayOvertime_mono {rate : ℚ} (hr : 0 ≤ rate) {h1 h2 : ℚ} (hle : h1 ≤ h2) :
    weekdayOvertime rate h1 ≤ weekdayOvertime rate h2 := by
  by_cases hp1 : 0 < h1
  · have hp2 : 0 < h2 := lt_of_lt_of_le hp1 hle
    unfold weekdayOvertime
    rw [if_pos hp1, if_pos hp2]
    have hmin : min h1 2 ≤ min h2 2 := min_le_min hle le_rfl
    have hmax : max 0 (h1 - 2) ≤ max 0 (h2 - 2) := max_le_max le_rfl (by linarith)
    have t1 : rate * min h1 2 * (4/3) ≤ rate * min h2 2 * (4/3) :=
      mul_le_mul_of_nonneg_right (mul_le_mul_of_nonneg_left hmin hr) (by norm_num)
    have t2 : rate * max 0 (h1 - 2) * (5/3) ≤ rate * max 0 (h2 - 2) * (5/3) :=
      mul_le_mul_of_nonneg_right (mul_le_mul_of_nonneg_left hmax hr) (by norm_num)
    linarith
  · have hz : weekdayOvertime rate h1 = 0 := by unfold weekdayOvertime; rw [if_neg hp1]
    rw [hz]
    exact weekdayOvertime_nonneg hr h2

lemma holidayOvertime_nonneg {rate : ℚ} (hr : 0 ≤ rate) (h : ℚ) :
    0 ≤ holidayOvertime rate h := by
  unfold holidayOvertime
  split
  · rename_i hpos
    have t1 : (0:ℚ) ≤ rate * 8 := mul_nonneg hr (by norm_num)
    split
    · rename_i h8
      have t2 : (0:ℚ) ≤ rate * (h - 8) * (4/3) :=
        mul_nonneg (mul_nonneg hr (by linarith)) (by norm_num)
      linarith
    · linarith
  · exact le_refl 0

lemma holidayOvertime_mono {rate : ℚ} (hr : 0 ≤ rate) {h1 h2 : ℚ} (hle : h1 ≤ h2) :
    holidayOvertime rate h1 ≤ holidayOvertime rate h2 := by
  by_cases hp1 : 0 < h1
  · have hp2 : 0 < h2 := lt_of_lt_of_le hp1 hle
    unfold holidayOvertime
    rw [if_pos hp1, if_pos hp2]
    by_cases h81 : 8 < h1
    · have h82 : 8 < h2 := lt_of_lt_of_le h81 hle
      rw [if_pos h81, if_pos h82]
      have t : rate * (h1 - 8) * (4/3) ≤ rate * (h2 - 8) * (4/3) :=
        mul_le_mul_of_nonneg_right (mul_le_mul_of_nonneg_left (by linarith) hr) (by norm_num)
      linarith
    · rw [if_neg h81]
      by_cases h82 : 8 < h2
      · rw [if_pos h82]
        have t : (0:ℚ) ≤ rate * (h2 - 8) * (4/3) :=
          mul_nonneg (mul_nonneg hr (by linarith)) (by norm_num)
        linarith
      · rw [if_neg h82]
  · have hz : holidayOvertime rate h1 = 0 := by unfold holidayOvertime; rw [if_neg hp1]
    rw [hz]
    exact holidayOvertime_nonneg hr h2

lemma jsCeil_mono {a b : ℚ} (h : a ≤ b) : jsCeil a ≤ jsCeil b := by
  rw [jsCeil_eq, jsCeil_eq]
  exact_mod_cast Int.ceil_le_ceil h

lemma calculateOvertimePay_def (reg w r h : ℚ) :
    calculateOvertimePay reg w r h
      = jsCeil (weekdayOvertime (reg / 240) w + weekdayOvertime (reg / 240) r
          + holidayOvertime (reg / 240) h) := rfl

lemma overtimePaySpec_def (reg w r h : ℚ) :
    overtimePaySpec reg w r h
      = jsCeil ((reg / 240 * min w 2 * (4/3) + reg / 240 * max 0 (w - 2) * (5/3))
          + (reg / 240 * min r 2 * (4/3) + reg / 240 * max 0 (r - 2) * (5/3))
          + ((if 0 < h then reg / 240 * 8 else 0)
              + (if 8 < h then reg / 240 * (h - 8) * (4/3) else 0))) := rfl

/-! ## C6 -/

/-- C6: `lookupTier` on an ascending, nonempty table and a non-negative
reference salary returns the first tier when the salary is below it,
otherwise the smallest tier value that is at least the salary, and the last
(maximum) tier when the salary exceeds every tier; it is total on this
domain (a capped staircase function with no error case). -/
theorem lookupTier_staircase (t0 : ℚ) (rest : List ℚ) (s : ℚ) (h0 : 0 ≤ s)
    (hsort : (t0 :: rest).Sorted (· ≤ ·)) :
    (s ≤ t0 → lookupTier (t0 :: rest) s = t0)
    ∧ ((∃ b ∈ t0 :: rest, s ≤ b) →
        lookupTier (t0 :: rest) s ∈ t0 :: rest ∧ s ≤ lookupTier (t0 :: rest) s ∧
        ∀ b ∈ t0 :: rest, s ≤ b → lookupTier (t0 :: rest) s ≤ b)
    ∧ ((∀ b ∈ t0 :: rest, b < s) →
        lookupTier (t0 :: rest) s = (t0 :: rest).getLast (List.cons_ne_nil t0 rest)) := by
  by_cases hle : s ≤ t0
  · have hres : lookupTier (t0 :: rest) s = t0 := lookupTier_head t0 rest s hle
    refine ⟨fun _ => hres, fun _ => ?_, fun hall =>
      absurd hle (not_le.mpr (hall t0 (List.mem_cons_self t0 rest)))⟩
    rw [hres]
    refine ⟨List.mem_cons_self t0 rest, hle, fun b hb _ => ?_⟩
    rcases List.mem_cons.mp hb with rfl | hmem
    · exact le_refl b
    · exact (List.sorted_cons.mp hsort).1 b hmem
  · cases heq : findBracket s (t0 :: rest) with
    | some b =>
      have hres : lookupTier (t0 :: rest) s = b := by
        simp [lookupTier, hle, heq]
      obtain ⟨hbmem, hsb⟩ := findBracket_some heq
      refine ⟨fun hc => absurd hc hle, fun _ => ?_, fun hall =>
        absurd hsb (not_le.mpr (hall b hbmem))⟩
      rw [hres]
      exact ⟨hbmem, hsb, fun c hc hsc => findBracket_least hsort heq c hc hsc⟩
    | none =>
      have hall : ∀ b ∈ t0 :: rest, b < s := findBracket_none heq
      have hres : lookupTier (t0 :: rest) s = ((t0 :: rest).getLast?).getD 0 := by
        simp [lookupTier, hle, heq]
      refine ⟨fun hc => absurd hc hle, fun hex => ?_, fun _ => ?_⟩
      · obtain ⟨b, hb, hsb⟩ := hex
        exact absurd hsb (not_le.mpr (hall b hb))
      · rw [hres, List.getLast?_eq_getLast (t0 :: rest) (List.cons_ne_nil t0 rest)]
        rfl

/-- Witness for C6 on the concrete table `[10, 20]` at salary 15. -/
theorem lookupTier_staircase_witness :
    0 ≤ (15:ℚ) ∧ List.Sorted (· ≤ ·) [(10:ℚ), 20]
    ∧ (((15:ℚ) ≤ 10 → lookupTier [10, 20] 15 = 10)
       ∧ ((∃ b ∈ [(10:ℚ), 20], (15:ℚ) ≤ b) →
            lookupTier [10, 20] 15 ∈ [(10:ℚ), 20] ∧ (15:ℚ) ≤ lookupTier [10, 20] 15 ∧
            ∀ b ∈ [(10:ℚ), 20], (15:ℚ) ≤ b → lookupTier [10, 20] 15 ≤ b)
       ∧ ((∀ b ∈ [(10:ℚ), 20], b < 15) →
            lookupTier [10, 20] 15 = List.getLast [(10:ℚ), 20] (List.cons_ne_nil 10 [20]))) :=
  ⟨by norm_num, by norm_num [List.sorted_cons], lookupTier_staircase 10 [20] 15 (by norm_num)
    (by norm_num [List.sorted_cons])⟩

/-! ## C4 -/

/-- C4: for non-negative inputs, `calculateOvertimePay` equals the ceiling of
the sum described by the specification: weekday and rest-day hours pay
`rate × min(h,2) × 4/3 + rate × max(0,h−2) × 5/3`, positive holiday hours pay
a flat `rate × 8` plus `rate × (h−8) × 4/3` beyond 8 hours, with the
unrounded rate `regularSalary / 240` and a single final ceiling. -/
theorem overtime_matches_claim_formula (reg w r h : ℚ) (hreg : 0 ≤ reg)
    (hw : 0 ≤ w) (hr : 0 ≤ r) (hh : 0 ≤ h) :
    calculateOvertimePay reg w r h = overtimePaySpec reg w r h := by
  rw [calculateOvertimePay_def, overtimePaySpec_def]
  have cat : ∀ x : ℚ, 0 ≤ x → weekdayOvertime (reg / 240) x
      = reg / 240 * min x 2 * (4/3) + reg / 240 * max 0 (x - 2) * (5/3) := by
    intro x hx
    rcases eq_or_lt_of_le hx with hx0 | hxpos
    · rw [← hx0]
      unfold weekdayOvertime
      rw [if_neg (lt_irrefl 0), min_eq_left (by norm_num : (0:ℚ) ≤ 2),
        max_eq_left (by norm_num : (0:ℚ) - 2 ≤ 0)]
      ring
    · unfold weekdayOvertime
      rw [if_pos hxpos]
  have hol : holidayOvertime (reg / 240) h
      = (if 0 < h then reg / 240 * 8 else 0)
        + (if 8 < h then reg / 240 * (h - 8) * (4/3) else 0) := by
    unfold holidayOvertime
    by_cases hp : 0 < h
    · rw [if_pos hp, if_pos hp]
    · have h8 : ¬ 8 < h := fun hc => hp (lt_trans (by norm_num) hc)
      rw [if_neg hp, if_neg hp, if_neg h8]
      norm_num
  rw [cat w hw, cat r hr, hol]

/-- Witness for C4 at the spec's first overtime scenario. -/
theorem overtime_matches_claim_formula_witness :
    (0 ≤ (66000:ℚ) ∧ 0 ≤ (3:ℚ) ∧ 0 ≤ (0:ℚ) ∧ 0 ≤ (0:ℚ))
    ∧ calculateOvertimePay 66000 3 0 0 = overtimePaySpec 66000 3 0 0 :=
  ⟨⟨by norm_num, by norm_num, le_refl 0, le_refl 0⟩,
    overtime_matches_claim_formula 66000 3 0 0 (by norm_num) (by norm_num) (le_refl 0)
      (le_refl 0)⟩

/-! ## C7 -/

/-- C7: for non-negative inputs, increasing any single one of the three
overtime-hour categories, holding the other inputs fixed, never decreases
`calculateOvertimePay`. -/
theorem overtime_monotone (reg w r hH w2 r2 hH2 : ℚ) (hreg : 0 ≤ reg)
    (hw : 0 ≤ w) (hr : 0 ≤ r) (hh : 0 ≤ hH) :
    (w ≤ w2 → calculateOvertimePay reg w r hH ≤ calculateOvertimePay reg w2 r hH)
    ∧ (r ≤ r2 → calculateOvertimePay reg w r hH ≤ calculateOvertimePay reg w r2 hH)
    ∧ (hH ≤ hH2 → calculateOvertimePay reg w r hH ≤ calculateOvertimePay reg w r hH2) := by
  have hrate : (0:ℚ) ≤ reg / 240 := by positivity
  refine ⟨fun hle => ?_, fun hle => ?_, fun hle => ?_⟩
  · rw [calculateOvertimePay_def, calculateOvertimePay_def]
    apply jsCeil_mono
    have t := weekdayOvertime_mono hrate hle
    linarith
  · rw [calculateOvertimePay_def, calculateOvertimePay_def]
    apply jsCeil_mono
    have t := weekdayOvertime_mono hrate hle
    linarith
  · rw [calculateOvertimePay_def, calculateOvertimePay_def]
    apply jsCeil_mono
    have t := holidayOvertime_mono hrate hle
    linarith

/-- Witness for C7 at concrete hour increases in each category. -/
theorem overtime_monotone_witness :
    (0 ≤ (66000:ℚ) ∧ 0 ≤ (1:ℚ) ∧ 0 ≤ (0:ℚ) ∧ 0 ≤ (0:ℚ))
    ∧ (((1:ℚ) ≤ 3 → calculateOvertimePay 66000 1 0 0 ≤ calculateOvertimePay 66000 3 0 0)
       ∧ ((0:ℚ) ≤ 2 → calculateOvertimePay 66000 1 0 0 ≤ calculateOvertimePay 66000 1 2 0)
       ∧ ((0:ℚ) ≤ 9 → calculateOvertimePay 66000 1 0 0 ≤ calculateOvertimePay 66000 1 0 9)) :=
  ⟨⟨by norm_num, by norm_num, le_refl 0, le_refl 0⟩,
    overtime_monotone 66000 1 0 0 3 2 9 (by norm_num) (by norm_num) (le_refl 0) (le_refl 0)⟩

/-! ## C1 -/

/-- C1: for every non-negative pension basis salary, `calculatePension`
rounds the dedicated pension-table tier times the 6% pension rate; the
pension table is a separate sequence from the labor- and health-insurance
tables, with different tier boundaries and different caps (150,000 versus
45,800 and 313,000). -/
theorem pension_dedicated_table (b : ℚ) (hb : 0 ≤ b) :
    calculatePension b = jsRound (lookupTier PENSION_BRACKETS b * PENSION_RATE)
    ∧ PENSION_RATE = 6 / 100
    ∧ PENSION_BRACKETS ≠ LABOR_BRACKETS
    ∧ PENSION_BRACKETS ≠ HEALTH_BRACKETS
    ∧ LABOR_BRACKETS ≠ HEALTH_BRACKETS
    ∧ LABOR_BRACKETS.getLast? = some 45800
    ∧ HEALTH_BRACKETS.getLast? = some 313000
    ∧ PENSION_BRACKETS.getLast? = some 150000 := by
  refine ⟨rfl, by norm_num [PENSION_RATE], by decide, by decide, by decide, by decide,
    by decide, by decide⟩

/-- Witness for C1 at pension basis salary 30000. -/
theorem pension_dedicated_table_witness :
    0 ≤ (30000:ℚ)
    ∧ (calculatePension 30000 = jsRound (lookupTier PENSION_BRACKETS 30000 * PENSION_RATE)
       ∧ PENSION_RATE = 6 / 100
       ∧ PENSION_BRACKETS ≠ LABOR_BRACKETS
       ∧ PENSION_BRACKETS ≠ HEALTH_BRACKETS
       ∧ LABOR_BRACKETS ≠ HEALTH_BRACKETS
       ∧ LABOR_BRACKETS.getLast? = some 45800
       ∧ HEALTH_BRACKETS.getLast? = some 313000
       ∧ PENSION_BRACKETS.getLast? = some 150000) :=
  ⟨by norm_num, pension_dedicated_table 30000 (by norm_num)⟩

/-! ## C2

Field projections of `computePayroll` (all definitional), followed by an
exact evaluation of the sample employee's payroll. -/

lemma computePayroll_overtimePay (emp : Employee) :
    (computePayroll emp).overtimePay
      = calculateOvertimePay
          (emp.baseSalary + emp.mealAllowance + emp.fuelAllowance + emp.attendanceBonus)
          emp.otHoursWeekday emp.otHoursRestDay emp.otHoursHoliday := rfl

lemma computePayroll_grossSalary (emp : Employee) :
    (computePayroll emp).grossSalary
      = emp.baseSalary + emp.mealAllowance + emp.fuelAllowance + emp.attendanceBonus
        + (emp.customAllowances.map Allowance.amount).sum
        + (computePayroll emp).overtimePay := rfl

lemma computePayroll_laborInsuranceEmp (emp : Employee) :
    (computePayroll emp).laborInsuranceEmp = calculateLaborInsurance (insuranceBasis emp) := rfl

lemma computePayroll_healthInsuranceEmp (emp : Employee) :
    (computePayroll emp).healthInsuranceEmp
      = calculateHealthInsurance (insuranceBasis emp) emp.dependents := rfl

lemma computePayroll_totalDeductions (emp : Employee) :
    (computePayroll emp).totalDeductions
      = (computePayroll emp).laborInsuranceEmp + (computePayroll emp).healthInsuranceEmp
        + (emp.customDeductions.map Deduction.amount).sum := rfl

lemma computePayroll_netPay (emp : Employee) :
    (computePayroll emp).netPay
      = (computePayroll emp).grossSalary - (computePayroll emp).totalDeductions := rfl

lemma demo_overtime : calculateOvertimePay 66000 3 0 0 = 1192 := by
  rw [calculateOvertimePay_def]
  have hw3 : weekdayOvertime ((66000:ℚ) / 240) 3 = 3575/3 := by
    unfold weekdayOvertime
    rw [if_pos (by norm_num : (0:ℚ) < 3), min_eq_right (by norm_num : (2:ℚ) ≤ 3),
      max_eq_right (by norm_num : (0:ℚ) ≤ 3 - 2)]
    norm_num
  have hw0 : weekdayOvertime ((66000:ℚ) / 240) 0 = 0 := by
    unfold weekdayOvertime
    rw [if_neg (lt_irrefl 0)]
  have hh0 : holidayOvertime ((66000:ℚ) / 240) 0 = 0 := by
    unfold holidayOvertime
    rw [if_neg (lt_irrefl 0)]
  rw [hw3, hw0, hh0, show (3575/3 + 0 + 0 : ℚ) = 3575/3 by norm_num]
  rw [jsCeil_eq_of (3575/3) 1192 (by norm_num) (by norm_num)]
  norm_num

lemma labor_tier_71000 : getLaborInsuredSalary 71000 = 45800 := by
  norm_num [getLaborInsuredSalary, lookupTier, LABOR_BRACKETS, findBracket, List.getLast?]

lemma health_tier_71000 : getHealthInsuredSalary 71000 = 72800 := by
  norm_num [getHealthInsuredSalary, lookupTier, HEALTH_BRACKETS, findBracket]

lemma demo_basis : insuranceBasis demoEmployee = 71000 := by
  norm_num [insuranceBasis, demoEmployee, List.sum_cons, List.sum_nil]

lemma demo_gross : (computePayroll demoEmployee).grossSalary = 72192 := by
  rw [computePayroll_grossSalary, computePayroll_overtimePay]
  norm_num [demoEmployee, List.sum_cons, List.sum_nil, demo_overtime]

lemma demo_laborEmp : (computePayroll demoEmployee).laborInsuranceEmp = 1145 := by
  rw [computePayroll_laborInsuranceEmp, demo_basis]
  unfold calculateLaborInsurance
  rw [labor_tier_71000,
    jsRound_eq_of ((45800:ℚ) * LABOR_INSURANCE_RATE * LABOR_EMPLOYEE_SHARE) 1145
      (by norm_num [LABOR_INSURANCE_RATE, LABOR_EMPLOYEE_SHARE])
      (by norm_num [LABOR_INSURANCE_RATE, LABOR_EMPLOYEE_SHARE])]
  norm_num

lemma demo_healthEmp : (computePayroll demoEmployee).healthInsuranceEmp = 1129 := by
  rw [computePayroll_healthInsuranceEmp, demo_basis,
    show demoEmployee.dependents = 0 from rfl]
  unfold calculateHealthInsurance
  rw [health_tier_71000,
    jsRound_eq_of ((72800:ℚ) * HEALTH_INSURANCE_RATE * HEALTH_EMPLOYEE_SHARE) 1129
      (by norm_num [HEALTH_INSURANCE_RATE, HEALTH_EMPLOYEE_SHARE])
      (by norm_num [HEALTH_INSURANCE_RATE, HEALTH_EMPLOYEE_SHARE])]
  norm_num

lemma demo_totalDeductions : (computePayroll demoEmployee).totalDeductions = 2274 := by
  rw [computePayroll_totalDeductions, demo_laborEmp, demo_healthEmp,
    show demoEmployee.customDeductions = [] from rfl]
  norm_num

lemma demo_netPay : (computePayroll demoEmployee).netPay = 69918 := by
  rw [computePayroll_netPay, demo_gross, demo_totalDeductions]
  norm_num

/-- C2 counterexample: on the exact employee record of the claim (the sample
employee shipped in `App.tsx`), the code charges employee health insurance
1129 (insurance basis 71000, which includes the 5000 custom allowance, so
the health tier is 72800), refuting the claimed conjunction with
healthInsuranceEmp 1037, totalDeductions 2182 and netPay 70010. -/
theorem full_aggregate_scenario_refuted :
    (computePayroll demoEmployee).healthInsuranceEmp = 1129
    ∧ ¬((computePayroll demoEmployee).grossSalary = 72192
        ∧ (computePayroll demoEmployee).laborInsuranceEmp = 1145
        ∧ (computePayroll demoEmployee).healthInsuranceEmp = 1037
        ∧ (computePayroll demoEmployee).totalDeductions = 2182
        ∧ (computePayroll demoEmployee).netPay = 70010) := by
  refine ⟨demo_healthEmp, fun hc => ?_⟩
  have h := hc.2.2.1
  rw [demo_healthEmp] at h
  norm_num at h

/-- C2 amended: on the claim's employee record, `computePayroll` returns
grossSalary 72192, employee labor insurance 1145, employee health insurance
1129, totalDeductions 2274 and netPay 69918 (the insurance basis is the
fixed monthly total 71000, which includes the 5000 custom allowance). -/
theorem full_aggregate_scenario :
    (computePayroll demoEmployee).grossSalary = 72192
    ∧ (computePayroll demoEmployee).laborInsuranceEmp = 1145
    ∧ (computePayroll demoEmployee).healthInsuranceEmp = 1129
    ∧ (computePayroll demoEmployee).totalDeductions = 2274
    ∧ (computePayroll demoEmployee).netPay = 69918 :=
  ⟨demo_gross, demo_laborEmp, demo_healthEmp, demo_totalDeductions, demo_netPay⟩

/-! ## C3 -/

/-- C3: for every employee record, the authoritative `computePayroll`
satisfies `totalCompanyCost = netPay + laborInsuranceCo + healthInsuranceCo
+ pensionCompany` exactly (the net-pay-based formula). -/
theorem total_cost_identity (emp : Employee) :
    (computePayroll emp).totalCompanyCost
      = (computePayroll emp).netPay + (computePayroll emp).laborInsuranceCo
        + (computePayroll emp).healthInsuranceCo + (computePayroll emp).pensionCompany := rfl

/-! ## C5 -/

/-- C5: employee health insurance equals the rounded single-person share
`round(lookupTier(healthTable, s) × 0.0517 × 0.30)` multiplied by
`1 + min(dependents, 3)` with no second rounding, and consequently the
charge for 3 dependents equals the charge for 99 dependents. -/
theorem health_insurance_formula (s : ℚ) (hs : 0 ≤ s) (d : ℕ) :
    calculateHealthInsurance s d
      = jsRound (lookupTier HEALTH_BRACKETS s * HEALTH_INSURANCE_RATE * HEALTH_EMPLOYEE_SHARE)
        * ((1 + min d 3 : ℕ) : ℚ)
    ∧ HEALTH_INSURANCE_RATE = 517 / 10000
    ∧ HEALTH_EMPLOYEE_SHARE = 30 / 100
    ∧ calculateHealthInsurance s 3 = calculateHealthInsurance s 99 :=
  ⟨rfl, by norm_num [HEALTH_INSURANCE_RATE], by norm_num [HEALTH_EMPLOYEE_SHARE], rfl⟩

/-- Witness for C5 at basis salary 66000 with 2 dependents. -/
theorem health_insurance_formula_witness :
    0 ≤ (66000:ℚ)
    ∧ (calculateHealthInsurance 66000 2
        = jsRound (lookupTier HEALTH_BRACKETS 66000 * HEALTH_INSURANCE_RATE
            * HEALTH_EMPLOYEE_SHARE) * ((1 + min 2 3 : ℕ) : ℚ)
       ∧ HEALTH_INSURANCE_RATE = 517 / 10000
       ∧ HEALTH_EMPLOYEE_SHARE = 30 / 100
       ∧ calculateHealthInsurance 66000 3 = calculateHealthInsurance 66000 99) :=
  ⟨by norm_num, health_insurance_formula 66000 (by norm_num) 2⟩

/-! ## C10 -/

/-- C10: for any basis salary between 0 and the lowest bracket of the
respective table, the tier lookup returns the table minimum (11100 for
labor, 28590 for health), so the employee labor- and health-insurance
contributions are constant over that range and strictly positive — an
employee with zero basis salary is still charged the minimum-bracket
amounts (278, and 443 per chargeable person), never zero. -/
theorem minimum_bracket_floor (s : ℚ) (d : ℕ) (h0 : 0 ≤ s) :
    (s ≤ 11100 → getLaborInsuredSalary s = 11100 ∧ calculateLaborInsurance s = 278
        ∧ 0 < calculateLaborInsurance s)
    ∧ (s ≤ 28590 → getHealthInsuredSalary s = 28590
        ∧ calculateHealthInsurance s d = 443 * ((1 + min d 3 : ℕ) : ℚ)
        ∧ 0 < calculateHealthInsurance s d) := by
  constructor
  · intro hle
    have htier : getLaborInsuredSalary s = 11100 := by
      unfold getLaborInsuredSalary LABOR_BRACKETS
      exact lookupTier_head _ _ _ hle
    have h278 : jsRound ((11100:ℚ) * LABOR_INSURANCE_RATE * LABOR_EMPLOYEE_SHARE) = ((278:ℕ):ℚ) :=
      jsRound_eq_of _ 278 (by norm_num [LABOR_INSURANCE_RATE, LABOR_EMPLOYEE_SHARE])
        (by norm_num [LABOR_INSURANCE_RATE, LABOR_EMPLOYEE_SHARE])
    have hval : calculateLaborInsurance s = 278 := by
      unfold calculateLaborInsurance
      rw [htier, h278]
      norm_num
    exact ⟨htier, hval, by rw [hval]; norm_num⟩
  · intro hle
    have htier : getHealthInsuredSalary s = 28590 := by
      unfold getHealthInsuredSalary HEALTH_BRACKETS
      exact lookupTier_head _ _ _ hle
    have h443 : jsRound ((28590:ℚ) * HEALTH_INSURANCE_RATE * HEALTH_EMPLOYEE_SHARE) = ((443:ℕ):ℚ) :=
      jsRound_eq_of _ 443 (by norm_num [HEALTH_INSURANCE_RATE, HEALTH_EMPLOYEE_SHARE])
        (by norm_num [HEALTH_INSURANCE_RATE, HEALTH_EMPLOYEE_SHARE])
    have hval : calculateHealthInsurance s d = 443 * ((1 + min d 3 : ℕ) : ℚ) := by
      unfold calculateHealthInsurance
      rw [htier, h443]
      norm_num
    have hcount : (0:ℚ) < ((1 + min d 3 : ℕ) : ℚ) := by
      exact_mod_cast Nat.lt_of_lt_of_le Nat.zero_lt_one (Nat.le_add_right 1 (min d 3))
    refine ⟨htier, hval, ?_⟩
    rw [hval]
    exact mul_pos (by norm_num) hcount

/-- Witness for C10 at basis salary 0 with 0 dependents. -/
theorem minimum_bracket_floor_witness :
    0 ≤ (0:ℚ)
    ∧ (getLaborInsuredSalary 0 = 11100 ∧ calculateLaborInsurance 0 = 278
        ∧ 0 < calculateLaborInsurance 0)
    ∧ (getHealthInsuredSalary 0 = 28590
        ∧ calculateHealthInsurance 0 0 = 443 * ((1 + min 0 3 : ℕ) : ℚ)
        ∧ 0 < calculateHealthInsurance 0 0) :=
  ⟨le_refl 0, (minimum_bracket_floor 0 0 (le_refl 0)).1 (by norm_num),
    (minimum_bracket_floor 0 0 (le_refl 0)).2 (by norm_num)⟩

/-! ## Batch lemmas for C8 and C9 -/

lemma mapSet_of_fresh (m : List (String × CalculatedPayroll)) (k : String)
    (v : CalculatedPayroll) (h : ∀ p ∈ m, p.1 ≠ k) : mapSet m k v = m ++ [(k, v)] := by
  have hany : m.any (fun p => p.1 == k) = false := by
    rw [List.any_eq_false]
    intro p hp
    simp only [beq_iff_eq]
    exact h p hp
  simp [mapSet, hany]

lemma batch_go (emps : List Employee) (m : List (String × CalculatedPayroll))
    (hd : ∀ e ∈ emps, ∀ p ∈ m, p.1 ≠ e.id)
    (hnd : (emps.map Employee.id).Nodup) :
    List.foldl (fun acc e => mapSet acc e.id (computePayroll e)) m emps
      = m ++ emps.map (fun e => (e.id, computePayroll e)) := by
  induction emps generalizing m with
  | nil => simp
  | cons e es ih =>
    rw [List.map_cons, List.nodup_cons] at hnd
    have hfresh : ∀ p ∈ m, p.1 ≠ e.id :=
      fun p hp => hd e (List.mem_cons_self e es) p hp
    have hd2 : ∀ e2 ∈ es, ∀ p ∈ m ++ [(e.id, computePayroll e)], p.1 ≠ e2.id := by
      intro e2 he2 p hp
      rcases List.mem_append.mp hp with hpm | hps
      · exact hd e2 (List.mem_cons_of_mem e he2) p hpm
      · have hpe : p = (e.id, computePayroll e) := by simpa using hps
        subst hpe
        intro hcontra
        have hcontra2 : e.id = e2.id := hcontra
        exact hnd.1 (hcontra2 ▸ List.mem_map_of_mem Employee.id he2)
    rw [List.foldl_cons, mapSet_of_fresh m e.id (computePayroll e) hfresh,
      ih (m ++ [(e.id, computePayroll e)]) hd2 hnd.2]
    simp

lemma computePayrollBatch_eq_map (emps : List Employee)
    (hnd : (emps.map Employee.id).Nodup) :
    computePayrollBatch emps = emps.map (fun e => (e.id, computePayroll e)) := by
  unfold computePayrollBatch
  simpa using batch_go emps [] (by simp) hnd

lemma lookup_map_pair (emps : List Employee) (hnd : (emps.map Employee.id).Nodup)
    (e : Employee) (he : e ∈ emps) :
    List.lookup e.id (emps.map (fun e2 => (e2.id, computePayroll e2)))
      = some (computePayroll e) := by
  induction emps with
  | nil => exact absurd he (List.not_mem_nil e)
  | cons a as ih =>
    rw [List.map_cons, List.nodup_cons] at hnd
    rcases List.mem_cons.mp he with rfl | hmem
    · simp [List.lookup]
    · have hne : e.id ≠ a.id := by
        intro hc
        exact hnd.1 (hc ▸ List.mem_map_of_mem Employee.id hmem)
      have hbeq : (e.id == a.id) = false := beq_eq_false_iff_ne.mpr hne
      rw [List.map_cons]
      simp only [List.lookup, hbeq]
      exact ih hnd.2 hmem

/-! ## C8 -/

/-- C8: when the input records carry pairwise distinct ids, the batch
computation returns a mapping whose keys are exactly those ids with no
duplicates, with exactly one entry per input record (each record appearing
with its own payroll), and whose contents are permutation-invariant in the
input order. -/
theorem batch_keyed_unique (emps : List Employee)
    (hnd : (emps.map Employee.id).Nodup) :
    ((computePayrollBatch emps).map Prod.fst).Nodup
    ∧ (computePayrollBatch emps).length = emps.length
    ∧ (∀ e ∈ emps, (e.id, computePayroll e) ∈ computePayrollBatch emps)
    ∧ ∀ emps2 : List Employee, emps.Perm emps2 →
        (computePayrollBatch emps).Perm (computePayrollBatch emps2) := by
  have heq := computePayrollBatch_eq_map emps hnd
  refine ⟨?_, ?_, ?_, ?_⟩
  · rw [heq]
    have hkeys : (emps.map (fun e => (e.id, computePayroll e))).map Prod.fst
        = emps.map Employee.id := by
      rw [List.map_map]
      rfl
    rw [hkeys]
    exact hnd
  · rw [heq, List.length_map]
  · intro e he
    rw [heq]
    exact List.mem_map_of_mem _ he
  · intro emps2 hperm
    have hnd2 : (emps2.map Employee.id).Nodup := ((hperm.map Employee.id).nodup_iff).mp hnd
    rw [heq, computePayrollBatch_eq_map emps2 hnd2]
    exact hperm.map _

/-- Witness for C8 on the two-employee batch `[empA, empB]`, with the
permutation clause instantiated at the swapped batch. -/
theorem batch_keyed_unique_witness :
    ([empA, empB].map Employee.id).Nodup
    ∧ ((computePayrollBatch [empA, empB]).map Prod.fst).Nodup
    ∧ (computePayrollBatch [empA, empB]).length = 2
    ∧ (empA.id, computePayroll empA) ∈ computePayrollBatch [empA, empB]
    ∧ (computePayrollBatch [empA, empB]).Perm (computePayrollBatch [empB, empA]) := by
  have h := batch_keyed_unique [empA, empB] (by decide)
  exact ⟨by decide, h.1, h.2.1, h.2.2.1 empA (by simp),
    h.2.2.2 [empB, empA] (List.Perm.swap empB empA [])⟩

/-! ## C9 -/

/-- C9: payroll computation is deterministic and per-employee
noninterfering: with bracket tables and rates fixed, the batch entry for an
employee is exactly `computePayroll` of that employee's record, and it is
identical across two batches that contain the same record but otherwise
arbitrary, different companion records. -/
theorem payroll_noninterference (emps1 emps2 : List Employee) (e : Employee)
    (hnd1 : (emps1.map Employee.id).Nodup) (hnd2 : (emps2.map Employee.id).Nodup)
    (he1 : e ∈ emps1) (he2 : e ∈ emps2) :
    List.lookup e.id (computePayrollBatch emps1) = some (computePayroll e)
    ∧ List.lookup e.id (computePayrollBatch emps1)
        = List.lookup e.id (computePayrollBatch emps2) := by
  have h1 : List.lookup e.id (computePayrollBatch emps1) = some (computePayroll e) := by
    rw [computePayrollBatch_eq_map emps1 hnd1]
    exact lookup_map_pair emps1 hnd1 e he1
  have h2 : List.lookup e.id (computePayrollBatch emps2) = some (computePayroll e) := by
    rw [computePayrollBatch_eq_map emps2 hnd2]
    exact lookup_map_pair emps2 hnd2 e he2
  exact ⟨h1, h1.trans h2.symm⟩

/-- Witness for C9: `empA`'s batch entry is the same whether the companion
record is `empB` or `empC`. -/
theorem payroll_noninterference_witness :
    (([empA, empB].map Employee.id).Nodup ∧ ([empA, empC].map Employee.id).Nodup)
    ∧ List.lookup empA.id (computePayrollBatch [empA, empB]) = some (computePayroll empA)
    ∧ List.lookup empA.id (computePayrollBatch [empA, empB])
        = List.lookup empA.id (computePayrollBatch [empA, empC]) :=
  ⟨⟨by decide, by decide⟩,
    payroll_noninterference [empA, empB] [empA, empC] empA (by decide) (by decide)
      (by simp) (by simp)⟩

end Salary
